import Mathlib

/-!
Verification development for the `downloadstage3` Calamares module
(`src/modules/downloadstage3/main.py`).

The module downloads a stage3 tarball together with its trust artifacts
(`.sha256` checksum file, `.asc` detached PGP signature, `.DIGESTS`
multi-hash manifest), verifies them, extracts the tarball into the target
tree and runs a fixed sequence of in-chroot bootstrap commands.

The shallow embedding below translates the module function by function.
External effects (network retrievals, spawned commands, the gemato PGP
verifier, cryptographic hash digests, tar member extraction) are modelled
by an explicit environment record `Env` that fixes their outcomes for one
run, and the pipeline `run` is a pure function from `Env` to the list of
observable events it performs plus its final outcome.

Modelling assumptions, stated once here:
* the pipeline-level `run` model assumes the supervising parent process
  stays alive for the whole run (`os.getppid() != 1` at every check);
  the liveness-cancellation behaviour of the individual loops is modelled
  separately by the `alive`-parameterised loop functions further down;
* plain local filesystem side effects that no event observes and that the
  module performs unconditionally (removing stale files in `/mnt`, copying
  `resolv.conf`, creating config directories and writing config snippets,
  deleting caches) are assumed to succeed and are not given events;
* float arithmetic on progress values (`percent / 2`,
  `50 + i * 50 / total`) is modelled by exact rational values represented
  as numerator/denominator pairs of integers.
-/

namespace Stage3

/-! ## String helpers (Python string operations on `List Char` data) -/

/-- Lowercase a string character by character, as Python `str.lower()` does
for the ASCII strings handled by the module. -/
def lowerStr (s : String) : String := String.mk (s.data.map Char.toLower)

/-- Substring test on character lists: Python `needle in hay`. -/
def listContains (needle : List Char) : List Char → Bool
  | [] => needle.isEmpty
  | c :: rest => needle.isPrefixOf (c :: rest) || listContains needle rest

/-- Substring test on strings: Python `needle in hay`. -/
def strContains (hay needle : String) : Bool := listContains needle.data hay.data

/-- Python whitespace class used by `str.strip()` and the `\s` regex class. -/
def isPyWs (c : Char) : Bool :=
  c = ' ' || c = '\t' || c = '\n' || c = '\r' || c = '\x0b' || c = '\x0c'

/-- Python `str.strip()` on a character list. -/
def stripWs (l : List Char) : List Char :=
  ((l.dropWhile isPyWs).reverse.dropWhile isPyWs).reverse

/-- Python `str.rstrip('/')` on a character list. -/
def rstripSlash (l : List Char) : List Char :=
  (l.reverse.dropWhile (· = '/')).reverse

/-- Python `os.path.basename`: the part after the last `/`. -/
def basenameL (l : List Char) : List Char :=
  (l.reverse.takeWhile (· ≠ '/')).reverse

/-! ## gemato PGP verification (`verify_pgp_signature_gemato`, lines 73-112)

The external `gemato` process is abstracted by the outcome of its
invocation: either it ran and produced a return code with captured stdout
and stderr, or the binary was missing (`FileNotFoundError`), or some other
exception escaped `subprocess.run`. -/

inductive GematoOutcome where
  | ran (returncode : Int) (stdout stderr : String)
  | notFound
  | excepted (msg : String)
deriving DecidableEq

/-- Pinned Gentoo release key fingerprint hard-coded at line 76. -/
def gentooKeyFingerprint : String := "13EBBDBEDE7A12775DFDB1BABB572E0E2D182910"

/-- Embedding of `verify_pgp_signature_gemato` (lines 73-112): the result
passes only when gemato exited 0 and the pinned fingerprint occurs in the
combined output (checked verbatim or case-insensitively, line 93). -/
def verify_pgp_signature_gemato (g : GematoOutcome) : Bool × String :=
  match g with
  | .ran rc out err =>
    if rc = 0 then
      if strContains (out ++ err) gentooKeyFingerprint
          || strContains (lowerStr (out ++ err)) (lowerStr gentooKeyFingerprint) then
        (true, "Verified with gemato")
      else
        (false, "Wrong signing key")
    else
      (false, "Verification failed")
  | .notFound => (false, "gemato not found")
  | .excepted e => (false, e)

/-! ## Hash computation (`calculate_hash` / `verify_hash`, lines 114-143)

The cryptographic digests themselves are abstracted by an oracle giving,
for a file path, the lowercase hex digest `hashlib` would produce, plus a
flag saying whether opening and reading the file succeeds. -/

structure HashOracle where
  sha512 : String → String
  blake2b : String → String
  readOk : String → Bool

/-- Embedding of `calculate_hash` (lines 114-131): only `SHA512` and
`BLAKE2B` are supported; an unsupported type or a read failure yields
`none` (the Python function returns `None` after printing a failure). -/
def calculate_hash (o : HashOracle) (filepath hash_type : String) : Option String :=
  if hash_type = "SHA512" then
    if o.readOk filepath then some (o.sha512 filepath) else none
  else if hash_type = "BLAKE2B" then
    if o.readOk filepath then some (o.blake2b filepath) else none
  else
    none

/-- Embedding of `verify_hash` (lines 133-143): case-insensitive comparison
of the recomputed digest against the expected one. -/
def verify_hash (o : HashOracle) (filepath hash_type expected_hash : String) : Bool :=
  match calculate_hash o filepath hash_type with
  | none => false
  | some c => lowerStr c == lowerStr expected_hash

/-! ## DIGESTS parsing (`parse_digests_file`, lines 145-171)

Lines of the manifest are processed one by one; a `# <ALGO> HASH` header
selects the current algorithm and subsequent `<hex>  <filename>` lines are
recorded under it.  The two regexes are deterministic because their
character classes are disjoint, so they are rendered as direct scans.
The hash-line scan below agrees with the regex on every stripped line
(the parser strips each line before matching, so no line ends in
whitespace). -/

def isUpperOrDigit (c : Char) : Bool :=
  ('A' ≤ c && c ≤ 'Z') || ('0' ≤ c && c ≤ '9')

def isLowerHexDigit (c : Char) : Bool :=
  ('0' ≤ c && c ≤ '9') || ('a' ≤ c && c ≤ 'f')

/-- Match of the header regex from line 156 against a stripped line;
returns the captured algorithm name. -/
def matchHashHeader (l : List Char) : Option (List Char) :=
  match l with
  | '#' :: r =>
    if (r.takeWhile isPyWs).isEmpty then none
    else
      let r1 := r.dropWhile isPyWs
      let algo := r1.takeWhile isUpperOrDigit
      if algo.isEmpty then none
      else
        let r2 := r1.dropWhile isUpperOrDigit
        if (r2.takeWhile isPyWs).isEmpty then none
        else if r2.dropWhile isPyWs = ['H', 'A', 'S', 'H'] then some algo
        else none
  | _ => none

/-- Match of the hash-line regex from line 161 against a stripped line;
returns the captured hex value and filename. -/
def matchHashLine (l : List Char) : Option (List Char × List Char) :=
  let hexv := l.takeWhile isLowerHexDigit
  if hexv.isEmpty then none
  else
    let r := l.dropWhile isLowerHexDigit
    if (r.takeWhile isPyWs).isEmpty then none
    else
      let fname := r.dropWhile isPyWs
      if fname.isEmpty then none else some (hexv, fname)

/-- Per-file map from algorithm name to expected hex digest, in insertion
order, as the Python dict holds it. -/
abbrev AlgoMap := List (List Char × List Char)

/-- Parsed manifest: filename to its algorithm map, in insertion order. -/
abbrev FileHashes := List (List Char × AlgoMap)

/-- Python `file_hashes[filename][algo] = value` with the preceding
`if filename not in file_hashes: file_hashes[filename] = \x7b\x7d`
(lines 165-167): overwrite in place or append. -/
def setAlgo (m : AlgoMap) (algo hv : List Char) : AlgoMap :=
  if m.any (fun p => p.1 == algo) then
    m.map (fun p => if p.1 == algo then (p.1, hv) else p)
  else
    m ++ [(algo, hv)]

def setFileHash (fh : FileHashes) (fname algo hv : List Char) : FileHashes :=
  if fh.any (fun p => p.1 == fname) then
    fh.map (fun p => if p.1 == fname then (p.1, setAlgo p.2 algo hv) else p)
  else
    fh ++ [(fname, setAlgo [] algo hv)]

/-- Processing of one raw line of the DIGESTS file (loop body, lines
153-167), acting on the state (current hash type, accumulated map). -/
def parse_digests_step (st : Option (List Char) × FileHashes) (rawLine : List Char) :
    Option (List Char) × FileHashes :=
  let line := stripWs rawLine
  if line.head? = some '-' || ['H', 'a', 's', 'h', ':'].isPrefixOf line then st
  else
    match matchHashHeader line with
    | some algo => (some algo, st.2)
    | none =>
      match st.1 with
      | none => st
      | some ct =>
        match matchHashLine line with
        | some (hv, fname) => (st.1, setFileHash st.2 fname ct hv)
        | none => st

/-- Line loop of `parse_digests_file` with the per-line liveness check of
line 152: `alive k` is the parent-alive test at the k-th iteration, and a
`true` second component means the loop was abandoned by `sys.exit(1)`. -/
def parse_digests_lines (alive : Nat → Bool) :
    Nat → (Option (List Char) × FileHashes) → List (List Char) → FileHashes × Bool
  | _, st, [] => (st.2, false)
  | k, st, l :: rest =>
    if alive k then parse_digests_lines alive (k + 1) (parse_digests_step st l) rest
    else (st.2, true)

/-- Embedding of `parse_digests_file` (lines 145-171) under a live parent. -/
def parse_digests_file (lines : List (List Char)) : FileHashes :=
  (parse_digests_lines (fun _ => true) 0 (none, []) lines).1

/-- Python `file_hashes[stage3_name]` lookup. -/
def lookupFileHashes (fh : FileHashes) (k : List Char) : Option AlgoMap :=
  (fh.find? (fun p => p.1 == k)).map (fun p => p.2)

/-- Embedding of `verify_stage3_with_digests` (lines 173-196): the DIGESTS
file must itself carry a pinned-key signature, parse to a non-empty map
containing the tarball basename, and every listed algorithm must verify. -/
def verify_stage3_with_digests (gem : GematoOutcome) (lines : List (List Char))
    (o : HashOracle) (stage3_path : String) : Bool :=
  if (verify_pgp_signature_gemato gem).1 then
    let file_hashes := parse_digests_file lines
    if file_hashes.isEmpty then false
    else
      match lookupFileHashes file_hashes (basenameL stage3_path.data) with
      | none => false
      | some hashes =>
        hashes.all (fun p => verify_hash o stage3_path (String.mk p.1) (String.mk p.2))
  else false

/-! ## Pipeline events and outcomes

One pipeline run is modelled as the list of observable events it performs
(progress reports, retrieval warnings, spawned commands, verification
results, extracted members) together with its final outcome.  Bind-mount
setup and lazy-unmount events have constructors so that statements about
them can be made, even though the module never performs any. -/

/-- Exact rational progress value reported to `libcalamares.job.setprogress`,
as numerator over (positive) denominator.  The Python code computes these
as floats; the denominators occurring here are 1, 2 and the member count,
and ordering of the float approximations agrees with the exact ordering. -/
structure PVal where
  num : Int
  den : Int
deriving DecidableEq

/-- Ordering test on progress values by cross-multiplication (denominators
are positive in every value the model produces). -/
def PVal.leB (x y : PVal) : Bool := decide (x.num * y.den ≤ y.num * x.den)

inductive Artifact where
  | tarball | sha256 | asc | digests
deriving DecidableEq

inductive Event where
  | progress (p : PVal)
  | warnFetch (a : Artifact)
  | command (argv : List String)
  | sigVerify (ok : Bool)
  | digestsVerify (ok : Bool)
  | extracted (i : Nat)
  | mountBind (src tgt : String)
  | unmountLazy (tgt : String)
deriving DecidableEq

inductive Outcome where
  | success
  | exited (code : Nat)
  | raised (msg : String)
deriving DecidableEq

structure RunRes where
  trace : List Event
  out : Outcome
deriving DecidableEq

/-- Prepend already-performed events to a continuation result. -/
def withPre (pre : List Event) (r : RunRes) : RunRes := ⟨pre ++ r.trace, r.out⟩

/-! ## Per-run environment

All external interaction outcomes for one run, fixed up front. -/

/-- Result of extracting one tar member (line 281): success, or an
`OSError` with the given `errno` (17 is `EEXIST`). -/
inductive MemberRes where
  | ok
  | osError (errno : Int)
deriving DecidableEq

structure Env where
  gentooLivecd : Option String
  rootMountPoint : String
  finalDownloadUrl : Option String
  stageNameTar : Option String
  blockSize : Int
  totalSize : Int
  hookCalls : List Int
  fetchTarballOk : Bool
  fetchSha256Ok : Bool
  fetchAscOk : Bool
  fetchDigestsOk : Bool
  sha256cmdOk : Bool
  rsyncOk : Bool
  gematoTarball : GematoOutcome
  gematoDigests : GematoOutcome
  digestLines : List (List Char)
  oracle : HashOracle
  members : List MemberRes
  getutoOk : Bool
  webrsyncOk : Bool
  emergePkgsOk : Bool
  emergeOneshotOk : Bool

/-! ## The transfer progress callback (`_progress_hook`, lines 14-19) -/

/-- Cap from lines 17-18: `if percent > 100: percent = 100`. -/
def capPercent (p : Int) : Int := if p > 100 then 100 else p

/-- Embedding of `_progress_hook`: the parent-liveness check runs first
(line 15, `sys.exit(1)` when orphaned); then the percentage is computed by
`int(count * block_size * 100 / total_size)` — a `ZeroDivisionError` when
the reported total size is zero — capped above at 100 and halved. -/
def progress_hook (alive : Bool) (count block_size total_size : Int) :
    Except String PVal :=
  if alive then
    if total_size = 0 then .error "ZeroDivisionError"
    else .ok ⟨capPercent ((count * block_size * 100).tdiv total_size), 2⟩
  else .error "SystemExit"

/-- Sequence of progress events produced by the hook during the tarball
retrieval, given the list of `count` arguments of its invocations; an
error from any invocation aborts the retrieval. -/
def hookEvents (block_size total_size : Int) : List Int → Except String (List Event)
  | [] => .ok []
  | c :: rest =>
    match progress_hook true c block_size total_size with
    | .error e => .error e
    | .ok p =>
      match hookEvents block_size total_size rest with
      | .error e => .error e
      | .ok es => .ok (.progress p :: es)

/-! ## Pipeline-level `_safe_run` (lines 52-71)

At pipeline level (parent alive) `_safe_run` reduces to: spawn the
command, wait; a nonzero exit status terminates the whole process with
exit status 1.  The polling loop itself is modelled further down for the
liveness claims. -/

def safe_run (argv : List String) (ok : Bool) (k : RunRes) : RunRes :=
  ⟨.command argv :: (if ok then k.trace else []), if ok then k.out else .exited 1⟩

/-! ## Configuration key check (`_check_global_storage_keys`, lines 25-50) -/

def check_global_storage_keys (env : Env) : Except String (String × String) :=
  match env.finalDownloadUrl with
  | none => .error "FINAL_DOWNLOAD_URL key is not set in global storage"
  | some url0 =>
    match env.stageNameTar with
    | none => .error "STAGE_NAME_TAR key is not set in global storage"
    | some tar =>
      let url := if url0.data.getLast? = some '/'
        then String.mk (rstripSlash url0.data) else url0
      if url = "" then .error "FINAL_DOWNLOAD_URL key exists but has no value"
      else if tar = "" then .error "STAGE_NAME_TAR key exists but has no value"
      else .ok (url, tar)

/-! ## Command lines spawned by the module -/

def rsyncArgv (env : Env) : List String :=
  ["rsync", "-aXA", "--hard-links", "--info=progress2", "/run/rootfsbase/",
    env.rootMountPoint ++ "/"]

def sha256Argv (tar : String) : List String :=
  ["bash", "-c", "cd /mnt && sha256sum -c " ++ tar ++ ".sha256"]

def getutoArgv (env : Env) : List String :=
  ["chroot", env.rootMountPoint, "getuto"]

def webrsyncArgv (env : Env) : List String :=
  ["chroot", env.rootMountPoint, "/bin/bash", "-c", "emerge-webrsync -q"]

def emergePkgsArgv (env : Env) : List String :=
  ["chroot", env.rootMountPoint, "/bin/bash", "-c",
    "EMERGE_DEFAULT_OPTS=\"$\x7bEMERGE_DEFAULT_OPTS\x7d --getbinpkg\" emerge -q sys-boot/grub net-misc/networkmanager net-wireless/iwd sys-fs/cryptsetup"]

def emergeOneshotArgv (env : Env) : List String :=
  ["chroot", env.rootMountPoint, "/bin/bash", "-c",
    "EMERGE_DEFAULT_OPTS=\"$\x7bEMERGE_DEFAULT_OPTS\x7d --getbinpkg\" emerge -q1 app-text/asciidoc sys-apps/dbus sys-libs/timezone-data"]

/-! ## Extraction loop (lines 275-285) -/

inductive ExtractExit where
  | done | fatal | cancelled
deriving DecidableEq

/-- Progress value `50 + i * 50 / total_members` from line 285. -/
def extractProgressP (i total : Nat) : PVal := ⟨50 * ((total : Int) + i), total⟩

/-- Member loop of the extraction stage: per member, the parent-liveness
check (line 279), then `tar.extract` where an `OSError` with errno 17 is
tolerated and any other re-raised (lines 280-284), then the progress
report (line 285). -/
def extractPhase (alive : Nat → Bool) (total : Nat) :
    Nat → List MemberRes → List Event × ExtractExit
  | _, [] => ([], .done)
  | i, m :: rest =>
    if alive i then
      match m with
      | .ok =>
        let r := extractPhase alive total (i + 1) rest
        (.extracted i :: .progress (extractProgressP i total) :: r.1, r.2)
      | .osError e =>
        if e = 17 then
          let r := extractPhase alive total (i + 1) rest
          (.progress (extractProgressP i total) :: r.1, r.2)
        else ([], .fatal)
    else ([], .cancelled)

/-! ## The pipeline (`run`, lines 198-357), split into its phases -/

/-- Bootstrap command sequence (lines 307-339): `getuto`, then
`emerge-webrsync`, then the main package install, then the one-shot
install; each through `_safe_run`, so the first failure exits. -/
def bootstrapPhase (env : Env) : RunRes :=
  safe_run (getutoArgv env) env.getutoOk
    (safe_run (webrsyncArgv env) env.webrsyncOk
      (safe_run (emergePkgsArgv env) env.emergePkgsOk
        (safe_run (emergeOneshotArgv env) env.emergeOneshotOk ⟨[], .success⟩)))

/-- Extraction stage of `run`: a fatal member error propagates as an
uncaught exception and aborts the pipeline. -/
def extractRunPhase (env : Env) : RunRes :=
  match (extractPhase (fun _ => true) env.members.length 0 env.members).2 with
  | .done =>
    withPre (extractPhase (fun _ => true) env.members.length 0 env.members).1
      (bootstrapPhase env)
  | .fatal =>
    ⟨(extractPhase (fun _ => true) env.members.length 0 env.members).1,
      .raised "OSError"⟩
  | .cancelled =>
    ⟨(extractPhase (fun _ => true) env.members.length 0 env.members).1,
      .exited 1⟩

/-- DIGESTS stage of `run` (lines 270-273): only attempted when the
manifest file is present; a failed verification exits fatally. -/
def digestPhase (env : Env) (tar : String) : RunRes :=
  if env.fetchDigestsOk then
    if verify_stage3_with_digests env.gematoDigests env.digestLines env.oracle
        ("/mnt/" ++ tar) then
      withPre [.digestsVerify true, .progress ⟨50, 1⟩] (extractRunPhase env)
    else ⟨[.digestsVerify false], .exited 1⟩
  else withPre [.progress ⟨50, 1⟩] (extractRunPhase env)

/-- Signature stage of `run` (lines 259-268): only attempted when the
`.asc` file is present; a failed verification exits fatally. -/
def sigPhase (env : Env) (tar : String) : RunRes :=
  if env.fetchAscOk then
    if (verify_pgp_signature_gemato env.gematoTarball).1 then
      withPre [.sigVerify true, .progress ⟨46, 1⟩] (digestPhase env tar)
    else ⟨[.sigVerify false], .exited 1⟩
  else withPre [.progress ⟨46, 1⟩] (digestPhase env tar)

/-- Retrieval and checksum part of `run` (lines 238-257): the tarball and
checksum retrievals are mandatory (an exception propagates), the `.asc`
and `.DIGESTS` retrievals are wrapped in try/except and only warn. -/
def fetchPhase (env : Env) (tar : String) : RunRes :=
  if env.fetchTarballOk then
    match hookEvents env.blockSize env.totalSize env.hookCalls with
    | .error e => ⟨[], .raised e⟩
    | .ok hs =>
      withPre (hs ++ [.progress ⟨30, 1⟩]) <|
        if env.fetchSha256Ok then
          withPre ([.progress ⟨35, 1⟩]
              ++ (if env.fetchAscOk then [] else [.warnFetch .asc])
              ++ [.progress ⟨38, 1⟩]
              ++ (if env.fetchDigestsOk then [] else [.warnFetch .digests])
              ++ [.progress ⟨40, 1⟩])
            (safe_run (sha256Argv tar) env.sha256cmdOk
              (withPre [.progress ⟨43, 1⟩] (sigPhase env tar)))
        else ⟨[], .raised "urlretrieve failed: sha256 file"⟩
  else ⟨[], .raised "urlretrieve failed: stage3 tarball"⟩

/-- Embedding of `run` (lines 198-357).  The live-CD branch (lines
198-209) rsyncs the pre-populated tree and returns; otherwise the
configuration keys are checked, the root mount point validated, and the
fetch/verify/extract/bootstrap pipeline executes. -/
def run (env : Env) : RunRes :=
  if env.gentooLivecd = some "yes" then
    if env.rootMountPoint = "" then
      ⟨[], .raised "rootMountPoint not set in global storage"⟩
    else safe_run (rsyncArgv env) env.rsyncOk ⟨[], .success⟩
  else
    match check_global_storage_keys env with
    | .error m => ⟨[], .raised m⟩
    | .ok (_url, tar) =>
      if env.rootMountPoint = "" then
        ⟨[], .raised "rootMountPoint not set in global storage"⟩
      else fetchPhase env tar

/-! ## Trace projections -/

inductive StageTag where
  | checksum | signature | manifest | extraction
deriving DecidableEq

/-- Classification of an event as one of the verification/extraction
stages; the checksum stage is the single `bash -c "... sha256sum -c ..."`
command, the only `bash`-headed command the module spawns. -/
def stageOf : Event → Option StageTag
  | .command argv => if argv.head? = some "bash" then some .checksum else none
  | .sigVerify _ => some .signature
  | .digestsVerify _ => some .manifest
  | .extracted _ => some .extraction
  | _ => none

def progressVals (t : List Event) : List PVal :=
  t.filterMap fun e => match e with | .progress p => some p | _ => none

def cmdArgvs (t : List Event) : List (List String) :=
  t.filterMap fun e => match e with | .command a => some a | _ => none

def isMountEvent : Event → Bool
  | .mountBind _ _ => true
  | .unmountLazy _ => true
  | _ => false

def nondecreasingPB : List PVal → Bool
  | [] => true
  | [_] => true
  | x :: y :: r => x.leB y && nondecreasingPB (y :: r)

/-! ## Liveness-instrumented loop models (Liveness Monitor claims)

`_check_parent_alive` (lines 21-23) exits the process when the parent has
become init.  Each long-running loop of the module consults it once per
iteration; the models below take the alive-schedule `alive : Nat → Bool`
(the value of the check at the k-th iteration) and report whether the loop
was abandoned (`true` = exited early via `sys.exit(1)`) together with the
work completed before that. -/

/-- Chunk loop of `calculate_hash` (lines 124-127): per 8192-byte chunk
read, the liveness check runs before the hasher update.  The returned list
is the sequence of chunks actually fed to the hasher. -/
def calculate_hash_chunks {α : Type} (alive : Nat → Bool) :
    Nat → List α → List α × Bool
  | _, [] => ([], false)
  | k, c :: rest =>
    if alive k then
      let r := calculate_hash_chunks alive (k + 1) rest
      (c :: r.1, r.2)
    else ([], true)

/-- Result of the `_safe_run` polling loop (lines 55-69). -/
inductive SafeRunRes where
  | completed (rc : Int)
  | exitNonzero
  | cancelledNoChild
  | cancelledChildKilled
  | outOfFuel
deriving DecidableEq

/-- Polling loop of `_safe_run`: at each ~1 s poll, first the child status
(`proc.poll()`, return or exit on completion), then the parent check
(terminate the child and exit when orphaned).  `child t` is the return
code observed at poll `t`, if the child has finished by then. -/
def safe_run_pollLoop (alive : Nat → Bool) (child : Nat → Option Int) :
    Nat → Nat → SafeRunRes
  | 0, _ => .outOfFuel
  | fuel + 1, t =>
    match child t with
    | some rc => if rc ≠ 0 then .exitNonzero else .completed rc
    | none =>
      if alive t then safe_run_pollLoop alive child fuel (t + 1)
      else .cancelledChildKilled

/-- Embedding of `_safe_run` (lines 52-71) for the liveness claims: the
initial `_check_parent_alive` (line 53) runs before the child is spawned,
then the polling loop runs. -/
def safe_run_model (alive : Nat → Bool) (child : Nat → Option Int)
    (fuel : Nat) : SafeRunRes :=
  if alive 0 then safe_run_pollLoop alive child fuel 0 else .cancelledNoChild

/-! ## Concrete environments used by the witnesses -/

def baseOracle : HashOracle := ⟨fun _ => "", fun _ => "", fun _ => true⟩

/-- Minimal fully-successful non-live run: both optional artifacts absent,
empty archive, every command succeeds. -/
def baseEnv : Env where
  gentooLivecd := none
  rootMountPoint := "/tmp/root"
  finalDownloadUrl := some "http://x/stage3.tar.xz"
  stageNameTar := some "stage3.tar.xz"
  blockSize := 1
  totalSize := 100
  hookCalls := []
  fetchTarballOk := true
  fetchSha256Ok := true
  fetchAscOk := false
  fetchDigestsOk := false
  sha256cmdOk := true
  rsyncOk := true
  gematoTarball := .ran 0 gentooKeyFingerprint ""
  gematoDigests := .ran 0 gentooKeyFingerprint ""
  digestLines := []
  oracle := baseOracle
  members := []
  getutoOk := true
  webrsyncOk := true
  emergePkgsOk := true
  emergeOneshotOk := true

/-! ## Helper lemmas about the phases -/

/-- Events produced by hook invocations are all progress reports. -/
lemma hookEvents_ok_shape (bs ts : Int) :
    ∀ cs hs, hookEvents bs ts cs = .ok hs →
      ∃ ps : List PVal, hs = ps.map Event.progress := by
  intro cs
  induction cs with
  | nil =>
    intro hs h
    injection h with h
    exact ⟨[], by rw [← h]; rfl⟩
  | cons c rest ih =>
    intro hs h
    simp only [hookEvents] at h
    cases hph : progress_hook true c bs ts with
    | error e => rw [hph] at h; cases h
    | ok p =>
      rw [hph] at h
      cases hre : hookEvents bs ts rest with
      | error e => rw [hre] at h; cases h
      | ok es =>
        rw [hre] at h
        injection h with h
        obtain ⟨ps, rfl⟩ := ih es hre
        exact ⟨p :: ps, by rw [← h]; rfl⟩

lemma map_progress_stageOf (ps : List PVal) :
    (ps.map Event.progress).filterMap stageOf = [] := by
  induction ps with
  | nil => rfl
  | cons p ps ih => simp [stageOf, ih]

lemma map_progress_mountFilter (ps : List PVal) :
    (ps.map Event.progress).filter isMountEvent = [] := by
  induction ps with
  | nil => rfl
  | cons p ps ih => simp [isMountEvent, ih]

lemma map_progress_cmdArgvs (ps : List PVal) :
    cmdArgvs (ps.map Event.progress) = [] := by
  induction ps with
  | nil => rfl
  | cons p ps ih => simp [cmdArgvs] at ih ⊢

/-- Tolerated member outcomes: success or the `EEXIST` collision. -/
def tolerated (m : MemberRes) : Prop := m = .ok ∨ m = .osError 17

instance toleratedDecidable (m : MemberRes) : Decidable (tolerated m) :=
  decidable_of_iff (m = .ok ∨ m = .osError 17) Iff.rfl

/-- Every event of the extraction loop is an extracted-member marker or a
progress report. -/
lemma extractPhase_shape (alive : Nat → Bool) (total : Nat) :
    ∀ i ms e, e ∈ (extractPhase alive total i ms).1 →
      (∃ j, e = Event.extracted j) ∨ (∃ p, e = Event.progress p) := by
  intro i ms
  induction ms generalizing i with
  | nil => intro e he; simp [extractPhase] at he
  | cons m rest ih =>
    intro e he
    by_cases halive : alive i = true
    · cases m with
      | ok =>
        simp only [extractPhase, halive, if_true, List.mem_cons] at he
        rcases he with rfl | rfl | he
        · exact .inl ⟨i, rfl⟩
        · exact .inr ⟨_, rfl⟩
        · exact ih (i + 1) e he
      | osError errno =>
        by_cases h17 : errno = 17
        · simp only [extractPhase, halive, if_true, h17, if_pos rfl,
            List.mem_cons] at he
          rcases he with rfl | he
          · exact .inr ⟨_, rfl⟩
          · exact ih (i + 1) e he
        · simp only [extractPhase, halive, if_true, if_neg h17] at he
          simp at he
    · rw [Bool.not_eq_true] at halive
      simp [extractPhase, halive] at he

lemma extractPhase_mountFilter (alive : Nat → Bool) (total i : Nat)
    (ms : List MemberRes) :
    ((extractPhase alive total i ms).1).filter isMountEvent = [] := by
  rw [List.filter_eq_nil_iff]
  intro e he
  rcases extractPhase_shape alive total i ms e he with ⟨j, rfl⟩ | ⟨p, rfl⟩ <;>
    simp [isMountEvent]

lemma extractPhase_cmdArgvs (alive : Nat → Bool) (total i : Nat)
    (ms : List MemberRes) :
    cmdArgvs ((extractPhase alive total i ms).1) = [] := by
  rw [cmdArgvs, List.filterMap_eq_nil_iff]
  intro e he
  rcases extractPhase_shape alive total i ms e he with ⟨j, rfl⟩ | ⟨p, rfl⟩ <;> rfl

/-- With every member extracting cleanly, the loop completes and performs
one extraction per member. -/
lemma extractPhase_all_ok (total : Nat) :
    ∀ i ms, (∀ m ∈ ms, m = MemberRes.ok) →
      (extractPhase (fun _ => true) total i ms).1.filterMap stageOf =
        List.replicate ms.length StageTag.extraction ∧
      (extractPhase (fun _ => true) total i ms).2 = .done := by
  intro i ms
  induction ms generalizing i with
  | nil => intro _; simp [extractPhase]
  | cons m rest ih =>
    intro hall
    have hm : m = MemberRes.ok := hall m (by simp)
    subst hm
    have := ih (i + 1) (fun m hm => hall m (by simp [hm]))
    simp [extractPhase, stageOf, List.replicate_succ, this.1, this.2]

/-- With only tolerated members, the loop completes, reporting progress
once per member. -/
lemma extractPhase_tolerated (total : Nat) :
    ∀ i ms, (∀ m ∈ ms, tolerated m) →
      (extractPhase (fun _ => true) total i ms).2 = .done ∧
      (progressVals (extractPhase (fun _ => true) total i ms).1).length =
        ms.length := by
  intro i ms
  induction ms generalizing i with
  | nil => intro _; simp [extractPhase, progressVals]
  | cons m rest ih =>
    intro hall
    have hrest := ih (i + 1) (fun m hm => hall m (by simp [hm]))
    have h1 := hrest.1
    have h2 := hrest.2
    simp only [progressVals] at h2 ⊢
    rcases hall m (by simp) with rfl | rfl <;>
      simp [extractPhase, h1, h2]

/-- A member failing with an `errno` other than 17 aborts the loop right
there: the members after it are not processed. -/
lemma extractPhase_fatal (total : Nat) (e : Int) (he : e ≠ 17) :
    ∀ i pre rest, (∀ m ∈ pre, tolerated m) →
      extractPhase (fun _ => true) total i (pre ++ .osError e :: rest) =
        ((extractPhase (fun _ => true) total i pre).1, .fatal) := by
  intro i pre rest
  induction pre generalizing i with
  | nil => intro _; simp [extractPhase, he]
  | cons m ms ih =>
    intro hall
    have hrec := ih (i + 1) (fun m hm => hall m (by simp [hm]))
    rcases hall m (by simp) with rfl | rfl <;>
      simp [extractPhase, hrec]

lemma bootstrapPhase_stageOf (env : Env) :
    (bootstrapPhase env).trace.filterMap stageOf = [] := by
  cases h1 : env.getutoOk <;> cases h2 : env.webrsyncOk <;>
    cases h3 : env.emergePkgsOk <;> cases h4 : env.emergeOneshotOk <;>
    simp [bootstrapPhase, safe_run, h1, h2, h3, h4, stageOf,
      getutoArgv, webrsyncArgv, emergePkgsArgv, emergeOneshotArgv]

lemma bootstrapPhase_mountFilter (env : Env) :
    (bootstrapPhase env).trace.filter isMountEvent = [] := by
  cases h1 : env.getutoOk <;> cases h2 : env.webrsyncOk <;>
    cases h3 : env.emergePkgsOk <;> cases h4 : env.emergeOneshotOk <;>
    simp [bootstrapPhase, safe_run, h1, h2, h3, h4, isMountEvent]

/-! ## Claims -/

/-- C10: the archive-transfer progress callback is only well-defined when
the reported total size is strictly positive: a reported total size of
zero raises `ZeroDivisionError`, and the `-1` value `urlretrieve` reports
when the size is unknown makes the computed percentage negative (for any
positive number of transferred bytes); the callback has no guard for
either case. -/
theorem C10_progress_hook_unguarded (count block_size : Int) :
    progress_hook true count block_size 0 = .error "ZeroDivisionError" ∧
    (0 < count * block_size →
      ∃ p : PVal, progress_hook true count block_size (-1) = .ok p ∧
        p.num < 0 ∧ p.den = 2) := by
  constructor
  · rfl
  · intro h
    have hlt : (count * block_size * 100).tdiv (-1) < 0 := by
      rw [Int.tdiv_neg, Int.tdiv_one]; nlinarith
    refine ⟨⟨capPercent ((count * block_size * 100).tdiv (-1)), 2⟩, ?_, ?_, rfl⟩
    · simp [progress_hook]
    · rw [capPercent, if_neg (by linarith)]
      exact hlt

/-- Witness for C10 at a concrete transfer: five blocks of one byte. -/
theorem C10_witness :
    progress_hook true 5 1 0 = .error "ZeroDivisionError" ∧
    ∃ p : PVal, progress_hook true 5 1 (-1) = .ok p ∧ p.num < 0 ∧ p.den = 2 :=
  ⟨(C10_progress_hook_unguarded 5 1).1,
    (C10_progress_hook_unguarded 5 1).2 (by norm_num)⟩

/-- C6: when the live-mode switch (`GENTOO_LIVECD = "yes"`) is set, the
run rsyncs the pre-populated tree onto the target path as its single
operation and reports success immediately; no verification stage and no
extraction is ever performed. -/
theorem C6_live_mode_early_exit (env : Env)
    (hlive : env.gentooLivecd = some "yes")
    (hrmp : env.rootMountPoint ≠ "")
    (hrsync : env.rsyncOk = true) :
    run env = ⟨[.command (rsyncArgv env)], .success⟩ ∧
    (run env).trace.filterMap stageOf = [] := by
  have h1 : run env = ⟨[.command (rsyncArgv env)], .success⟩ := by
    simp [run, hlive, hrmp, safe_run, hrsync]
  refine ⟨h1, ?_⟩
  rw [h1]
  simp [stageOf, rsyncArgv]

def envC6 : Env := { baseEnv with gentooLivecd := some "yes" }

/-- Witness for C6 at a concrete live-mode environment. -/
theorem C6_witness :
    run envC6 = ⟨[.command (rsyncArgv envC6)], .success⟩ ∧
    (run envC6).trace.filterMap stageOf = [] :=
  C6_live_mode_early_exit envC6 rfl (by decide) rfl

def envC8 : Env := { baseEnv with hookCalls := [100] }

/-- C8 (code bug): the reported progress is not monotonically
non-decreasing.  In a run whose transfer callback is invoked once with
`count * block_size = total_size` (transfer complete), the callback
reports `100 / 2 = 50`, and the very next report — the fixed
post-transfer checkpoint of line 239 — is 30, a decrease.  All of the
remaining reports of this run (35, 38, 40, 43, 46, 50) then rise again. -/
theorem C8_progress_not_monotone :
    (progressVals (run envC8).trace).take 2 = [⟨100, 2⟩, ⟨30, 1⟩] ∧
    nondecreasingPB (progressVals (run envC8).trace) = false ∧
    (run envC8).out = .success := by decide

set_option maxRecDepth 8000

/-- C1: the verification stages run in the fixed order checksum, then
signature, then digest manifest, then extraction, and a checksum failure
exits the pipeline fatally before any signature check, manifest check or
extraction happens (conjunct one: the only stage event of such a run is
the checksum command, and the run exits with status 1; conjunct two: a
fully successful run performs the stages in exactly the claimed order). -/
theorem C1_stage_order_and_checksum_gate (env : Env) (url tar : String)
    (hs : List Event)
    (hnl : env.gentooLivecd ≠ some "yes")
    (hck : check_global_storage_keys env = .ok (url, tar))
    (hrmp : env.rootMountPoint ≠ "")
    (hft : env.fetchTarballOk = true)
    (hhe : hookEvents env.blockSize env.totalSize env.hookCalls = .ok hs)
    (hfs : env.fetchSha256Ok = true) :
    (env.sha256cmdOk = false →
      (run env).out = .exited 1 ∧
      (run env).trace.filterMap stageOf = [StageTag.checksum]) ∧
    (env.sha256cmdOk = true → env.fetchAscOk = true →
      (verify_pgp_signature_gemato env.gematoTarball).1 = true →
      env.fetchDigestsOk = true →
      verify_stage3_with_digests env.gematoDigests env.digestLines env.oracle
        ("/mnt/" ++ tar) = true →
      (∀ m ∈ env.members, m = MemberRes.ok) →
      (run env).trace.filterMap stageOf =
        StageTag.checksum :: StageTag.signature :: StageTag.manifest ::
          List.replicate env.members.length StageTag.extraction) := by
  have hrun : run env = fetchPhase env tar := by
    unfold run
    rw [if_neg hnl, hck]
    simp [hrmp]
  obtain ⟨ps, rfl⟩ := hookEvents_ok_shape _ _ _ _ hhe
  constructor
  · intro hsc
    rw [hrun]
    cases hA : env.fetchAscOk <;> cases hD : env.fetchDigestsOk <;>
      simp [fetchPhase, hft, hhe, hfs, withPre, safe_run, hsc, hA, hD,
        stageOf, map_progress_stageOf, List.filterMap_append, sha256Argv]
  · intro hsc hasc hsig hdig hver hmem
    have hex := extractPhase_all_ok env.members.length 0 env.members hmem
    rw [hrun]
    simp [fetchPhase, hft, hhe, hfs, withPre, safe_run, hsc, sigPhase, hasc,
      hsig, digestPhase, hdig, hver, extractRunPhase, hex.2, stageOf,
      map_progress_stageOf, List.filterMap_append, sha256Argv, hex.1,
      bootstrapPhase_stageOf]

def envC1 : Env := { baseEnv with sha256cmdOk := false }

/-- Witness for C1: a concrete run whose checksum command fails exits with
status 1 having performed no stage beyond the checksum. -/
theorem C1_witness :
    (run envC1).out = .exited 1 ∧
    (run envC1).trace.filterMap stageOf = [StageTag.checksum] :=
  (C1_stage_order_and_checksum_gate envC1 "http://x/stage3.tar.xz"
    "stage3.tar.xz" [] (by decide) rfl (by decide) rfl rfl rfl).1 rfl

/-- C2: the signature stage passes only when gemato verified the detached
signature successfully (exit code 0, the model of cryptographic validity
over the archive bytes) and the pinned fingerprint occurs in its report
(the model of the signing key's identity check): the first conjuncts
characterise `verify_pgp_signature_gemato` as exactly that conjunction, so
a structurally valid signature whose report names no pinned key is a
failure; the last conjunct shows a failing signature stage aborts the run
with exit status 1 before any manifest verification or extraction. -/
theorem C2_signature_requires_pinned_key (env : Env) (url tar : String)
    (hs : List Event)
    (hnl : env.gentooLivecd ≠ some "yes")
    (hck : check_global_storage_keys env = .ok (url, tar))
    (hrmp : env.rootMountPoint ≠ "")
    (hft : env.fetchTarballOk = true)
    (hhe : hookEvents env.blockSize env.totalSize env.hookCalls = .ok hs)
    (hfs : env.fetchSha256Ok = true)
    (hsc : env.sha256cmdOk = true) :
    (∀ rc out err, (verify_pgp_signature_gemato (.ran rc out err)).1 =
      (decide (rc = 0) &&
        (strContains (out ++ err) gentooKeyFingerprint ||
          strContains (lowerStr (out ++ err)) (lowerStr gentooKeyFingerprint)))) ∧
    (verify_pgp_signature_gemato .notFound).1 = false ∧
    (∀ e, (verify_pgp_signature_gemato (.excepted e)).1 = false) ∧
    (env.fetchAscOk = true →
      (verify_pgp_signature_gemato env.gematoTarball).1 = false →
      (run env).out = .exited 1 ∧
      (run env).trace.filterMap stageOf =
        [StageTag.checksum, StageTag.signature]) := by
  have hrun : run env = fetchPhase env tar := by
    unfold run
    rw [if_neg hnl, hck]
    simp [hrmp]
  obtain ⟨ps, rfl⟩ := hookEvents_ok_shape _ _ _ _ hhe
  refine ⟨fun rc out err => ?_, rfl, fun e => rfl, ?_⟩
  · by_cases hrc : rc = 0
    · cases hb : (strContains (out ++ err) gentooKeyFingerprint ||
          strContains (lowerStr (out ++ err)) (lowerStr gentooKeyFingerprint)) <;>
        simp [verify_pgp_signature_gemato, hrc, hb]
    · simp [verify_pgp_signature_gemato, hrc]
  · intro hasc hsig
    rw [hrun]
    cases hD : env.fetchDigestsOk <;>
      simp [fetchPhase, hft, hhe, hfs, withPre, safe_run, hsc, sigPhase, hasc,
        hsig, hD, stageOf, map_progress_stageOf, List.filterMap_append,
        sha256Argv]

def envC2 : Env :=
  { baseEnv with fetchAscOk := true, gematoTarball := .ran 0 "BEEF" "" }

/-- Witness for C2: a run whose detached signature verifies structurally
(gemato exit 0) but whose report does not name the pinned key aborts with
exit status 1 right after the signature stage. -/
theorem C2_witness :
    (run envC2).out = .exited 1 ∧
    (run envC2).trace.filterMap stageOf =
      [StageTag.checksum, StageTag.signature] :=
  (C2_signature_requires_pinned_key envC2 "http://x/stage3.tar.xz"
    "stage3.tar.xz" [] (by decide) rfl (by decide) rfl rfl rfl
    rfl).2.2.2 rfl (by decide)

/-- C3: the digest-manifest stage passes if and only if the manifest's own
pinned-key signature verifies, the parsed manifest is non-empty, it has an
entry for the archive's basename, and every algorithm listed in that entry
verifies; and a single algorithm verifies exactly when it is one of the
two supported ones, the file is readable, and the recomputed digest equals
the expected one case-insensitively — so an unsupported algorithm name or
any mismatch fails the stage; a failed stage aborts the run fatally. -/
theorem C3_digest_manifest_stage (gem : GematoOutcome)
    (lines : List (List Char)) (o : HashOracle) (path : String)
    (env : Env) (url tar : String) (hs : List Event)
    (hnl : env.gentooLivecd ≠ some "yes")
    (hck : check_global_storage_keys env = .ok (url, tar))
    (hrmp : env.rootMountPoint ≠ "")
    (hft : env.fetchTarballOk = true)
    (hhe : hookEvents env.blockSize env.totalSize env.hookCalls = .ok hs)
    (hfs : env.fetchSha256Ok = true)
    (hsc : env.sha256cmdOk = true)
    (hascF : env.fetchAscOk = false) :
    (verify_stage3_with_digests gem lines o path = true ↔
      ((verify_pgp_signature_gemato gem).1 = true ∧
        parse_digests_file lines ≠ [] ∧
        ∃ hashes, lookupFileHashes (parse_digests_file lines)
            (basenameL path.data) = some hashes ∧
          ∀ p ∈ hashes,
            verify_hash o path (String.mk p.1) (String.mk p.2) = true)) ∧
    (∀ ht e, verify_hash o path ht e = true ↔
      ((ht = "SHA512" ∧ o.readOk path = true ∧
          lowerStr (o.sha512 path) = lowerStr e) ∨
        (ht = "BLAKE2B" ∧ o.readOk path = true ∧
          lowerStr (o.blake2b path) = lowerStr e))) ∧
    (env.fetchDigestsOk = true →
      verify_stage3_with_digests env.gematoDigests env.digestLines env.oracle
        ("/mnt/" ++ tar) = false →
      (run env).out = .exited 1 ∧
      (run env).trace.filterMap stageOf =
        [StageTag.checksum, StageTag.manifest]) := by
  refine ⟨?_, ?_, ?_⟩
  · unfold verify_stage3_with_digests
    by_cases hgem : (verify_pgp_signature_gemato gem).1 = true
    · simp only [hgem, if_true]
      by_cases hempty : (parse_digests_file lines).isEmpty
      · have hnil : parse_digests_file lines = [] := by
          simpa using hempty
        simp [hempty, hnil]
      · have hne : parse_digests_file lines ≠ [] := by
          simpa using hempty
        cases hlk : lookupFileHashes (parse_digests_file lines)
            (basenameL path.data) with
        | none => simp [hempty, hlk, hne]
        | some hashes => simp [hempty, hlk, hne, List.all_eq_true]
    · have : (verify_pgp_signature_gemato gem).1 = false :=
        Bool.not_eq_true _ |>.mp hgem
      simp [this]
  · intro ht e
    by_cases h1 : ht = "SHA512"
    · cases hrd : o.readOk path <;>
        simp [verify_hash, calculate_hash, h1, hrd, lowerStr]
    · by_cases h2 : ht = "BLAKE2B"
      · cases hrd : o.readOk path <;>
          simp [verify_hash, calculate_hash, h1, h2, hrd, lowerStr]
      · simp [verify_hash, calculate_hash, h1, h2]
  · intro hdig hver
    have hrun : run env = fetchPhase env tar := by
      unfold run
      rw [if_neg hnl, hck]
      simp [hrmp]
    obtain ⟨ps, rfl⟩ := hookEvents_ok_shape _ _ _ _ hhe
    rw [hrun]
    simp [fetchPhase, hft, hhe, hfs, withPre, safe_run, hsc, sigPhase, hascF,
      digestPhase, hdig, hver, stageOf, map_progress_stageOf,
      List.filterMap_append, sha256Argv]

def envC3 : Env :=
  { baseEnv with
      fetchDigestsOk := true
      digestLines := ["# SHA512 HASH".data, "aa12  stage3.tar.xz".data] }

/-- Witness for C3: a manifest whose single SHA512 entry for the archive
does not match the recomputed digest makes the run abort with exit status
1 right after the manifest stage. -/
theorem C3_witness :
    (run envC3).out = .exited 1 ∧
    (run envC3).trace.filterMap stageOf =
      [StageTag.checksum, StageTag.manifest] :=
  (C3_digest_manifest_stage .notFound [] baseOracle "" envC3
    "http://x/stage3.tar.xz" "stage3.tar.xz" [] (by decide) rfl (by decide)
    rfl rfl rfl rfl rfl).2.2 rfl (by decide)

/-- C4: retrieval failure of the archive or the checksum file aborts the
run with an uncaught exception, whereas retrieval failure of the optional
`.asc` and `.DIGESTS` artifacts only logs a warning and skips the
corresponding stage: when both are absent and everything else succeeds,
the run extracts and reports success, with the checksum command the only
verification stage performed. -/
theorem C4_mandatory_vs_best_effort_retrieval (env : Env) (url tar : String)
    (hs : List Event)
    (hnl : env.gentooLivecd ≠ some "yes")
    (hck : check_global_storage_keys env = .ok (url, tar))
    (hrmp : env.rootMountPoint ≠ "") :
    (env.fetchTarballOk = false →
      (run env).out = .raised "urlretrieve failed: stage3 tarball") ∧
    (env.fetchTarballOk = true →
      hookEvents env.blockSize env.totalSize env.hookCalls = .ok hs →
      env.fetchSha256Ok = false →
      (run env).out = .raised "urlretrieve failed: sha256 file") ∧
    (env.fetchTarballOk = true →
      hookEvents env.blockSize env.totalSize env.hookCalls = .ok hs →
      env.fetchSha256Ok = true → env.fetchAscOk = false →
      env.fetchDigestsOk = false → env.sha256cmdOk = true →
      (∀ m ∈ env.members, m = MemberRes.ok) →
      env.getutoOk = true → env.webrsyncOk = true →
      env.emergePkgsOk = true → env.emergeOneshotOk = true →
      (run env).out = .success ∧
      Event.warnFetch .asc ∈ (run env).trace ∧
      Event.warnFetch .digests ∈ (run env).trace ∧
      (run env).trace.filterMap stageOf =
        StageTag.checksum ::
          List.replicate env.members.length StageTag.extraction) := by
  have hrun : run env = fetchPhase env tar := by
    unfold run
    rw [if_neg hnl, hck]
    simp [hrmp]
  refine ⟨?_, ?_, ?_⟩
  · intro hft
    rw [hrun]
    simp [fetchPhase, hft]
  · intro hft hhe hfs
    obtain ⟨ps, rfl⟩ := hookEvents_ok_shape _ _ _ _ hhe
    rw [hrun]
    simp [fetchPhase, hft, hhe, hfs, withPre]
  · intro hft hhe hfs hascF hdigF hsc hmem hg hw hp ho
    obtain ⟨ps, rfl⟩ := hookEvents_ok_shape _ _ _ _ hhe
    have hex := extractPhase_all_ok env.members.length 0 env.members hmem
    rw [hrun]
    simp [fetchPhase, hft, hhe, hfs, withPre, safe_run, hsc, sigPhase, hascF,
      digestPhase, hdigF, extractRunPhase, hex.1, hex.2, bootstrapPhase,
      hg, hw, hp, ho, stageOf, map_progress_stageOf, List.filterMap_append,
      sha256Argv, getutoArgv, webrsyncArgv, emergePkgsArgv, emergeOneshotArgv]

def envC4 : Env := { baseEnv with fetchSha256Ok := false }

/-- Witness for C4: a run whose optional artifacts are absent succeeds
(via the base environment), while a run whose checksum-file retrieval
fails aborts. -/
theorem C4_witness :
    (run envC4).out = .raised "urlretrieve failed: sha256 file" ∧
    (run baseEnv).out = .success ∧
    Event.warnFetch .asc ∈ (run baseEnv).trace ∧
    Event.warnFetch .digests ∈ (run baseEnv).trace :=
  ⟨(C4_mandatory_vs_best_effort_retrieval envC4 "http://x/stage3.tar.xz"
      "stage3.tar.xz" [] (by decide) rfl (by decide)).2.1 rfl rfl rfl,
    by
      have h := (C4_mandatory_vs_best_effort_retrieval baseEnv
        "http://x/stage3.tar.xz" "stage3.tar.xz" [] (by decide) rfl
        (by decide)).2.2 rfl rfl rfl rfl rfl rfl (by decide) rfl rfl rfl rfl
      exact ⟨h.1, h.2.1, h.2.2.1⟩⟩

lemma cmdArgvs_nil : cmdArgvs [] = [] := rfl

lemma cmdArgvs_append (s t : List Event) :
    cmdArgvs (s ++ t) = cmdArgvs s ++ cmdArgvs t := by
  simp [cmdArgvs]

lemma cmdArgvs_cons_command (a : List String) (t : List Event) :
    cmdArgvs (Event.command a :: t) = a :: cmdArgvs t := by
  simp [cmdArgvs]

lemma cmdArgvs_cons_progress (p : PVal) (t : List Event) :
    cmdArgvs (Event.progress p :: t) = cmdArgvs t := by
  simp [cmdArgvs]

lemma cmdArgvs_cons_warn (a : Artifact) (t : List Event) :
    cmdArgvs (Event.warnFetch a :: t) = cmdArgvs t := by
  simp [cmdArgvs]

lemma cmdArgvs_map_progress (ps : List PVal) (t : List Event) :
    cmdArgvs (ps.map Event.progress ++ t) = cmdArgvs t := by
  rw [cmdArgvs_append, map_progress_cmdArgvs]
  rfl

lemma extractRunPhase_mountFilter (env : Env) :
    (extractRunPhase env).trace.filter isMountEvent = [] := by
  cases hE : (extractPhase (fun _ => true) env.members.length 0 env.members).2 <;>
    simp [extractRunPhase, hE, withPre, List.filter_append,
      extractPhase_mountFilter, bootstrapPhase_mountFilter]

lemma digestPhase_mountFilter (env : Env) (tar : String) :
    (digestPhase env tar).trace.filter isMountEvent = [] := by
  unfold digestPhase
  cases hD : env.fetchDigestsOk <;>
    by_cases hv : verify_stage3_with_digests env.gematoDigests env.digestLines
      env.oracle ("/mnt/" ++ tar) = true <;>
    simp [hv, withPre, List.filter_append, extractRunPhase_mountFilter,
      isMountEvent]

lemma sigPhase_mountFilter (env : Env) (tar : String) :
    (sigPhase env tar).trace.filter isMountEvent = [] := by
  unfold sigPhase
  cases hA : env.fetchAscOk <;>
    cases hv : (verify_pgp_signature_gemato env.gematoTarball).1 <;>
    simp [hv, withPre, List.filter_append, digestPhase_mountFilter,
      isMountEvent]

lemma fetchPhase_mountFilter (env : Env) (tar : String) :
    (fetchPhase env tar).trace.filter isMountEvent = [] := by
  cases hft : env.fetchTarballOk
  · simp [fetchPhase, hft]
  · cases hhe : hookEvents env.blockSize env.totalSize env.hookCalls with
    | error e => simp [fetchPhase, hft, hhe]
    | ok hs =>
      obtain ⟨ps, rfl⟩ := hookEvents_ok_shape _ _ _ _ hhe
      cases hfs : env.fetchSha256Ok <;> cases hA : env.fetchAscOk <;>
        cases hD : env.fetchDigestsOk <;> cases hsc : env.sha256cmdOk <;>
        simp [fetchPhase, hft, hhe, hfs, hA, hD, hsc, withPre, safe_run,
          List.filter_append, map_progress_mountFilter,
          sigPhase_mountFilter, isMountEvent]

/-- No execution of the module performs a single bind-mount or unmount. -/
lemma run_mountFilter (env : Env) :
    (run env).trace.filter isMountEvent = [] := by
  unfold run
  by_cases hl : env.gentooLivecd = some "yes"
  · by_cases hr : env.rootMountPoint = "" <;> cases hrs : env.rsyncOk <;>
      simp [hl, hr, hrs, safe_run, isMountEvent]
  · cases hck : check_global_storage_keys env with
    | error m => simp [hl, hck]
    | ok p =>
      obtain ⟨u, t⟩ := p
      by_cases hr : env.rootMountPoint = "" <;>
        simp [hl, hck, hr, fetchPhase_mountFilter]

def envC5 : Env := baseEnv

/-- Counterexample to C5: a fully successful concrete run executes its
bootstrap commands (here the in-chroot `getuto` trust-store
initialization) while its trace contains no bind-mount setup of `/proc`,
`/sys`, `/dev`, `/run` and no unmount whatsoever — contradicting the
claim that the four host pseudo-filesystems are bind-mounted before the
bootstrap commands and lazily unmounted in reverse order afterwards. -/
theorem C5_counterexample :
    Event.command (getutoArgv envC5) ∈ (run envC5).trace ∧
    (run envC5).trace.filter isMountEvent = [] ∧
    (run envC5).out = .success := by decide

/-- C5 (amended): the module performs no bind mounts and no unmounts at
all — its bootstrap commands run via `chroot` directly against the
extracted tree — and when a bootstrap command fails the run terminates
immediately with exit status 1, with no teardown step of any kind after
it (the failing `getuto` is the last spawned command of the run). -/
theorem C5_no_mounts_no_teardown (env : Env) (url tar : String)
    (hs : List Event)
    (hnl : env.gentooLivecd ≠ some "yes")
    (hck : check_global_storage_keys env = .ok (url, tar))
    (hrmp : env.rootMountPoint ≠ "")
    (hft : env.fetchTarballOk = true)
    (hhe : hookEvents env.blockSize env.totalSize env.hookCalls = .ok hs)
    (hfs : env.fetchSha256Ok = true)
    (hsc : env.sha256cmdOk = true)
    (hascF : env.fetchAscOk = false)
    (hdigF : env.fetchDigestsOk = false)
    (hmem : ∀ m ∈ env.members, m = MemberRes.ok)
    (hget : env.getutoOk = false) :
    (run env).trace.filter isMountEvent = [] ∧
    (run env).out = .exited 1 ∧
    cmdArgvs (run env).trace = [sha256Argv tar, getutoArgv env] := by
  have hrun : run env = fetchPhase env tar := by
    unfold run
    rw [if_neg hnl, hck]
    simp [hrmp]
  refine ⟨run_mountFilter env, ?_⟩
  obtain ⟨ps, rfl⟩ := hookEvents_ok_shape _ _ _ _ hhe
  have hex := extractPhase_all_ok env.members.length 0 env.members hmem
  rw [hrun]
  simp [fetchPhase, hft, hhe, hfs, withPre, safe_run, hsc, sigPhase, hascF,
    digestPhase, hdigF, extractRunPhase, hex.2, bootstrapPhase, hget,
    cmdArgvs_map_progress, cmdArgvs_append, cmdArgvs_cons_command,
    cmdArgvs_cons_progress, cmdArgvs_cons_warn, cmdArgvs_nil,
    map_progress_cmdArgvs, extractPhase_cmdArgvs]

def envC5b : Env := { baseEnv with getutoOk := false }

/-- Witness for the amended C5: a run whose first bootstrap command fails
exits with status 1, its last spawned command being that bootstrap
command, with no mount or unmount anywhere in the run. -/
theorem C5_witness :
    (run envC5b).trace.filter isMountEvent = [] ∧
    (run envC5b).out = .exited 1 ∧
    cmdArgvs (run envC5b).trace =
      [sha256Argv "stage3.tar.xz", getutoArgv envC5b] :=
  C5_no_mounts_no_teardown envC5b "http://x/stage3.tar.xz" "stage3.tar.xz"
    [] (by decide) rfl (by decide) rfl rfl rfl rfl rfl rfl (by decide) rfl

/-- C7: during extraction, members whose extraction hits the
already-exists error (`errno` 17) are tolerated — the loop continues and
completes, reporting progress once per member — while a member failing
with any other `errno` aborts the loop right there, leaving the remaining
members unprocessed, and makes the whole run fail with the uncaught
`OSError`. -/
theorem C7_extraction_collisions_tolerated (total i : Nat)
    (ms pre rest : List MemberRes) (e : Int) (env : Env) (url tar : String)
    (hs : List Event)
    (hnl : env.gentooLivecd ≠ some "yes")
    (hck : check_global_storage_keys env = .ok (url, tar))
    (hrmp : env.rootMountPoint ≠ "")
    (hft : env.fetchTarballOk = true)
    (hhe : hookEvents env.blockSize env.totalSize env.hookCalls = .ok hs)
    (hfs : env.fetchSha256Ok = true)
    (hsc : env.sha256cmdOk = true)
    (hascF : env.fetchAscOk = false)
    (hdigF : env.fetchDigestsOk = false) :
    ((∀ m ∈ ms, tolerated m) →
      (extractPhase (fun _ => true) total i ms).2 = .done ∧
      (progressVals (extractPhase (fun _ => true) total i ms).1).length =
        ms.length) ∧
    ((∀ m ∈ pre, tolerated m) → e ≠ 17 →
      extractPhase (fun _ => true) total i (pre ++ .osError e :: rest) =
        ((extractPhase (fun _ => true) total i pre).1, .fatal)) ∧
    (env.members = pre ++ .osError e :: rest → (∀ m ∈ pre, tolerated m) →
      e ≠ 17 → (run env).out = .raised "OSError") := by
  refine ⟨extractPhase_tolerated total i ms,
    fun hpre h17 => extractPhase_fatal total e h17 i pre rest hpre, ?_⟩
  · intro hmem hpre h17
    have hrun : run env = fetchPhase env tar := by
      unfold run
      rw [if_neg hnl, hck]
      simp [hrmp]
    have hfat : (extractPhase (fun _ => true) env.members.length 0
        env.members).2 = .fatal := by
      rw [hmem, extractPhase_fatal _ e h17 0 pre rest hpre]
    obtain ⟨ps, rfl⟩ := hookEvents_ok_shape _ _ _ _ hhe
    rw [hrun]
    simp [fetchPhase, hft, hhe, hfs, withPre, safe_run, hsc, sigPhase, hascF,
      digestPhase, hdigF, extractRunPhase, hfat]

def envC7 : Env := { baseEnv with members := [.ok, .osError 5, .ok] }

/-- Witness for C7: a loop whose members succeed or collide completes with
one progress report per member; a member failing with `errno` 5 aborts the
loop after the members before it, and the run raises `OSError`. -/
theorem C7_witness :
    (extractPhase (fun _ => true) 3 0 [.ok, .osError 17]).2 = .done ∧
    (progressVals (extractPhase (fun _ => true) 3 0
      [.ok, .osError 17]).1).length = 2 ∧
    extractPhase (fun _ => true) 3 0 ([.ok] ++ .osError 5 :: [.ok]) =
      ((extractPhase (fun _ => true) 3 0 [.ok]).1, .fatal) ∧
    (run envC7).out = .raised "OSError" := by
  have h := C7_extraction_collisions_tolerated 3 0 [.ok, .osError 17] [.ok]
    [.ok] 5 envC7 "http://x/stage3.tar.xz" "stage3.tar.xz" [] (by decide)
    rfl (by decide) rfl rfl rfl rfl rfl rfl
  exact ⟨(h.1 (by decide)).1, (h.1 (by decide)).2,
    h.2.1 (by decide) (by decide), h.2.2 rfl (by decide) (by decide)⟩

/-! ## Liveness lemmas for the individual loops -/

lemma calculate_hash_chunks_cancelled {α : Type} (alive : Nat → Bool) :
    ∀ (k j : Nat) (chunks : List α),
      (∀ i, i < k → alive (j + i) = true) → alive (j + k) = false →
      k < chunks.length →
      calculate_hash_chunks alive j chunks = (chunks.take k, true) := by
  intro k
  induction k with
  | zero =>
    intro j chunks h1 h2 hlen
    cases chunks with
    | nil => simp at hlen
    | cons c rest =>
      have hj : alive j = false := by simpa using h2
      simp [calculate_hash_chunks, hj]
  | succ k ih =>
    intro j chunks h1 h2 hlen
    cases chunks with
    | nil => simp at hlen
    | cons c rest =>
      have hj : alive j = true := by simpa using h1 0 (Nat.succ_pos k)
      have hrec := ih (j + 1) rest
        (fun i hi => by
          have harg : j + 1 + i = j + (i + 1) := by omega
          rw [harg]
          exact h1 (i + 1) (by omega))
        (by
          have harg : j + 1 + k = j + (k + 1) := by omega
          rw [harg]
          exact h2)
        (by simp at hlen; omega)
      simp [calculate_hash_chunks, hj, hrec]

lemma parse_digests_lines_cancelled (alive : Nat → Bool) :
    ∀ (k j : Nat) (st : Option (List Char) × FileHashes)
      (lines : List (List Char)),
      (∀ i, i < k → alive (j + i) = true) → alive (j + k) = false →
      k < lines.length →
      parse_digests_lines alive j st lines =
        ((List.foldl parse_digests_step st (lines.take k)).2, true) := by
  intro k
  induction k with
  | zero =>
    intro j st lines h1 h2 hlen
    cases lines with
    | nil => simp at hlen
    | cons l rest =>
      have hj : alive j = false := by simpa using h2
      simp [parse_digests_lines, hj]
  | succ k ih =>
    intro j st lines h1 h2 hlen
    cases lines with
    | nil => simp at hlen
    | cons l rest =>
      have hj : alive j = true := by simpa using h1 0 (Nat.succ_pos k)
      have hrec := ih (j + 1) (parse_digests_step st l) rest
        (fun i hi => by
          have harg : j + 1 + i = j + (i + 1) := by omega
          rw [harg]
          exact h1 (i + 1) (by omega))
        (by
          have harg : j + 1 + k = j + (k + 1) := by omega
          rw [harg]
          exact h2)
        (by simp at hlen; omega)
      simp [parse_digests_lines, hj, hrec]

lemma extractPhase_cancelled (total : Nat) (alive : Nat → Bool) :
    ∀ (k j : Nat) (ms : List MemberRes),
      (∀ m ∈ ms.take k, tolerated m) →
      (∀ i, i < k → alive (j + i) = true) → alive (j + k) = false →
      k < ms.length →
      extractPhase alive total j ms =
        ((extractPhase (fun _ => true) total j (ms.take k)).1,
          .cancelled) := by
  intro k
  induction k with
  | zero =>
    intro j ms htol h1 h2 hlen
    cases ms with
    | nil => simp at hlen
    | cons m rest =>
      have hj : alive j = false := by simpa using h2
      simp [extractPhase, hj]
  | succ k ih =>
    intro j ms htol h1 h2 hlen
    cases ms with
    | nil => simp at hlen
    | cons m rest =>
      have hj : alive j = true := by simpa using h1 0 (Nat.succ_pos k)
      have hrec := ih (j + 1) rest
        (fun x hx => htol x (by simp [hx]))
        (fun i hi => by
          have harg : j + 1 + i = j + (i + 1) := by omega
          rw [harg]
          exact h1 (i + 1) (by omega))
        (by
          have harg : j + 1 + k = j + (k + 1) := by omega
          rw [harg]
          exact h2)
        (by simp at hlen; omega)
      rcases htol m (by simp) with rfl | rfl <;>
        simp [extractPhase, hj, hrec]

lemma safe_run_pollLoop_cancelled (alive : Nat → Bool)
    (child : Nat → Option Int) :
    ∀ (k fuel t : Nat),
      (∀ i, i < k → alive (t + i) = true) → alive (t + k) = false →
      (∀ i, i ≤ k → child (t + i) = none) → k < fuel →
      safe_run_pollLoop alive child fuel t = .cancelledChildKilled := by
  intro k
  induction k with
  | zero =>
    intro fuel t h1 h2 h3 hfuel
    cases fuel with
    | zero => omega
    | succ f =>
      have ht : alive t = false := by simpa using h2
      have hc : child t = none := by simpa using h3 0 (Nat.le_refl 0)
      simp [safe_run_pollLoop, hc, ht]
  | succ k ih =>
    intro fuel t h1 h2 h3 hfuel
    cases fuel with
    | zero => omega
    | succ f =>
      have ht : alive t = true := by simpa using h1 0 (Nat.succ_pos k)
      have hc : child t = none := by simpa using h3 0 (Nat.zero_le _)
      have hrec := ih f (t + 1)
        (fun i hi => by
          have harg : t + 1 + i = t + (i + 1) := by omega
          rw [harg]
          exact h1 (i + 1) (by omega))
        (by
          have harg : t + 1 + k = t + (k + 1) := by omega
          rw [harg]
          exact h2)
        (fun i hi => by
          have harg : t + 1 + i = t + (i + 1) := by omega
          rw [harg]
          exact h3 (i + 1) (by omega))
        (by omega)
      simp [safe_run_pollLoop, hc, ht, hrec]

/-- C9: every loop of every long-running operation consults the
parent-liveness check once per iteration and stops immediately when the
parent has become init: the transfer callback refuses to run at all, the
per-chunk hash loop, the per-line manifest parse loop and the per-member
extraction loop abandon the remaining items at the first failing check,
and the external-command polling loop (which also checks once before
spawning) terminates the child and exits within the polling iteration at
which the check first fails. -/
theorem C9_liveness_checked_every_iteration :
    (∀ count block_size total_size : Int,
      progress_hook false count block_size total_size =
        .error "SystemExit") ∧
    (∀ (α : Type) (alive : Nat → Bool) (k : Nat) (chunks : List α),
      (∀ i, i < k → alive i = true) → alive k = false →
      k < chunks.length →
      calculate_hash_chunks alive 0 chunks = (chunks.take k, true)) ∧
    (∀ (alive : Nat → Bool) (k : Nat) (lines : List (List Char)),
      (∀ i, i < k → alive i = true) → alive k = false →
      k < lines.length →
      parse_digests_lines alive 0 (none, []) lines =
        ((List.foldl parse_digests_step (none, []) (lines.take k)).2,
          true)) ∧
    (∀ (alive : Nat → Bool) (total k : Nat) (ms : List MemberRes),
      (∀ m ∈ ms.take k, tolerated m) → (∀ i, i < k → alive i = true) →
      alive k = false → k < ms.length →
      extractPhase alive total 0 ms =
        ((extractPhase (fun _ => true) total 0 (ms.take k)).1,
          .cancelled)) ∧
    (∀ (alive : Nat → Bool) (child : Nat → Option Int) (fuel : Nat),
      alive 0 = false →
      safe_run_model alive child fuel = .cancelledNoChild) ∧
    (∀ (alive : Nat → Bool) (child : Nat → Option Int) (fuel k : Nat),
      0 < k → (∀ i, i < k → alive i = true) → alive k = false →
      (∀ i, i ≤ k → child i = none) → k < fuel →
      safe_run_model alive child fuel = .cancelledChildKilled) := by
  refine ⟨fun _ _ _ => rfl, ?_, ?_, ?_, ?_, ?_⟩
  · intro α alive k chunks h1 h2 hlen
    exact calculate_hash_chunks_cancelled alive k 0 chunks
      (fun i hi => by rw [Nat.zero_add]; exact h1 i hi)
      (by rw [Nat.zero_add]; exact h2) hlen
  · intro alive k lines h1 h2 hlen
    exact parse_digests_lines_cancelled alive k 0 (none, []) lines
      (fun i hi => by rw [Nat.zero_add]; exact h1 i hi)
      (by rw [Nat.zero_add]; exact h2) hlen
  · intro alive total k ms htol h1 h2 hlen
    exact extractPhase_cancelled total alive k 0 ms htol
      (fun i hi => by rw [Nat.zero_add]; exact h1 i hi)
      (by rw [Nat.zero_add]; exact h2) hlen
  · intro alive child fuel h0
    simp [safe_run_model, h0]
  · intro alive child fuel k hk h1 h2 h3 hfuel
    have h0 : alive 0 = true := h1 0 hk
    rw [safe_run_model, if_pos h0]
    exact safe_run_pollLoop_cancelled alive child k fuel 0
      (fun i hi => by rw [Nat.zero_add]; exact h1 i hi)
      (by rw [Nat.zero_add]; exact h2)
      (fun i hi => by rw [Nat.zero_add]; exact h3 i hi) hfuel

/-- Witness for C9 at concrete schedules: the parent becomes init after
two hash chunks, after one manifest line, after one extracted member, and
at the first poll of a spawned command. -/
theorem C9_witness :
    progress_hook false 1 1 1 = .error "SystemExit" ∧
    calculate_hash_chunks (fun i => decide (i < 2)) 0 [5, 6, 7] =
      ([5, 6], true) ∧
    parse_digests_lines (fun i => decide (i < 1)) 0 (none, [])
        [['a'], ['b']] =
      ((List.foldl parse_digests_step (none, []) [['a']]).2, true) ∧
    extractPhase (fun i => decide (i < 1)) 3 0 [.ok, .ok, .ok] =
      ((extractPhase (fun _ => true) 3 0 [MemberRes.ok]).1, .cancelled) ∧
    safe_run_model (fun _ => false) (fun _ => none) 5 =
      .cancelledNoChild ∧
    safe_run_model (fun i => decide (i < 1)) (fun _ => none) 3 =
      .cancelledChildKilled := by
  have h := C9_liveness_checked_every_iteration
  refine ⟨h.1 1 1 1, ?_, ?_, ?_, h.2.2.2.2.1 _ _ 5 rfl, ?_⟩
  · exact h.2.1 Nat (fun i => decide (i < 2)) 2 [5, 6, 7]
      (fun i hi => decide_eq_true hi) (by decide) (by decide)
  · exact h.2.2.1 (fun i => decide (i < 1)) 1 [['a'], ['b']]
      (fun i hi => decide_eq_true hi) (by decide) (by decide)
  · exact h.2.2.2.1 (fun i => decide (i < 1)) 3 1 [.ok, .ok, .ok]
      (by decide) (fun i hi => decide_eq_true hi) (by decide) (by decide)
  · exact h.2.2.2.2.2 (fun i => decide (i < 1)) (fun _ => none) 3 1
      (by decide) (fun i hi => decide_eq_true hi) (by decide)
      (fun i _ => rfl) (by decide)

end Stage3
